import Mathlib

/-!
Verification of the call-chain resolution pipeline of the CPU/GPU trace
profiler, against its natural-language specification.

The repository ships the pipeline's C declarations in
`src/CPU_Trace/include/dw-pid.h` (`init_dwfl`, `get_callchains`, ...) but the
implementing translation unit is absent, so the CPU-side components (Ring
Buffer Record Reader, Symbolizer, Chain Formatter, `capture_chain`) are
modelled from the specification text.  The GPU kernel-launch tracing callback
`callbackHandler` is embedded directly from `src/GPU_trace/kernel_trace.c`.
-/

namespace CPUTrace

/-- Modelled from the spec: contiguous slice of a memory region, the bytes at
positions `[lo, lo+len)`.  Missing from src: the buffer-copy helpers used by
the C implementation of `get_callchains`. -/
def slice (mem : List α) (lo len : Nat) : List α :=
  (mem.drop lo).take len

/-- Modelled from the spec: one contiguous memcpy into a memory region at
position `pos` (no wraparound). -/
def writeSlice (mem : List α) (pos : Nat) (bytes : List α) : List α :=
  mem.take pos ++ bytes ++ mem.drop (pos + bytes.length)

/-- Modelled from the spec: the kernel producer appending `bytes` into the
circular data region of capacity `size` starting at free-running cursor
`pos`; the copy wraps by splitting into at most two contiguous slices. -/
def writeRing (size : Nat) (mem : List α) (pos : Nat) (bytes : List α) : List α :=
  let p := pos % size
  if p + bytes.length ≤ size then
    writeSlice mem p bytes
  else
    writeSlice (writeSlice mem p (bytes.take (size - p))) 0 (bytes.drop (size - p))

/-- Modelled from the spec: the Ring-Buffer Record Reader copying out exactly
the bytes between the last-read cursor `tail` and the write cursor `head`
(both free-running, interpreted modulo the buffer `size`), splitting the copy
into at most two contiguous slices to handle wraparound. -/
def readRing (size : Nat) (mem : List α) (tail head : Nat) : List α :=
  let n := head - tail
  let t := tail % size
  if t + n ≤ size then
    slice mem t n
  else
    slice mem t (size - t) ++ slice mem 0 (t + n - size)

/-- Modelled from the spec: a non-wrapping (flat) buffer write, for the
wraparound-correctness comparison. -/
def writeFlat (mem : List α) (pos : Nat) (bytes : List α) : List α :=
  writeSlice mem pos bytes

/-- Modelled from the spec: reading bytes `[tail, head)` from a non-wrapping
buffer. -/
def readFlat (mem : List α) (tail head : Nat) : List α :=
  slice mem tail (head - tail)

/-- Modelled from the spec: the kernel-shared `perf_event_mmap_page` view,
with the data-region size, the kernel's free-running write cursor, the
cumulative loss counter, and the data region itself (as 64-bit words).
Missing from src: the mmap layout consumed by `get_callchains`. -/
structure PerfPage where
  dataSize : Nat
  dataHead : Nat
  lost : Nat
  mem : List Nat
deriving DecidableEq

/-- Modelled from the spec: the reader's private state, its free-running read
cursor and the loss-counter value observed at the previous read. -/
structure Reader where
  dataTail : Nat
  lastLost : Nat
deriving DecidableEq

/-- Modelled from the spec: the fixed hardware/kernel-imposed maximum
call-chain depth bounding the instruction-pointer count of a raw sample
record. -/
def maxChainDepth : Nat := 127

/-- Modelled from the spec: outcome of one `next_record()` call: no new data
(the normal steady state), an overrun carrying the number of lost records, a
corrupt record rejected because of an implausible count, or a raw sample
record (the captured instruction pointers, innermost first). -/
inductive ReadResult where
  | noData
  | overrun (lostCount : Nat)
  | corrupt
  | record (ips : List Nat)
deriving DecidableEq

/-- Modelled from the spec: `next_record()` of the Ring-Buffer Record Reader.
Missing from src: the record-extraction loop inside `get_callchains`.
It first checks the kernel's loss counter and surfaces an overrun (with the
lost-record count) before returning any record; an empty read is the normal
steady state; a raw sample record starts with an instruction-pointer count
followed by that many 64-bit addresses, and a count above `maxChainDepth` is
rejected as corrupt (the reader resynchronises by discarding the pending
bytes); otherwise the record is returned and the read cursor advances, never
past the write cursor. -/
def next_record (page : PerfPage) (r : Reader) : ReadResult × Reader :=
  if r.lastLost < page.lost then
    (.overrun (page.lost - r.lastLost), { r with lastLost := page.lost })
  else if page.dataHead ≤ r.dataTail then
    (.noData, r)
  else
    match readRing page.dataSize page.mem r.dataTail page.dataHead with
    | [] => (.noData, r)
    | count :: rest =>
      if maxChainDepth < count then
        (.corrupt, { r with dataTail := page.dataHead })
      else if rest.length < count then
        (.noData, r)
      else
        (.record (rest.take count), { r with dataTail := r.dataTail + 1 + count })

/-- Modelled from the spec: a sequence of `next_record()` calls, one per
observed kernel page state, threading the reader state through. -/
def runReader (pages : List PerfPage) (r : Reader) : Reader :=
  match pages with
  | [] => r
  | p :: ps => runReader ps (next_record p r).2

/-- Modelled from the spec: one logical frame recorded in a module's debug
metadata for an offset: a function name plus optional source file and line.
An offset marked as inlined carries several such entries (innermost first,
outermost last). -/
structure InlineEntry where
  func : String
  file : Option String
  line : Option Nat
deriving DecidableEq

/-- Modelled from the spec: one symbol-table entry of a module's embedded
debug metadata: a module-relative offset range `[lo, hi)` and the logical
frames covering it (a singleton when the code is not inlined). -/
structure SymEntry where
  lo : Nat
  hi : Nat
  frames : List InlineEntry
deriving DecidableEq

/-- Modelled from the spec: a loaded module: path, in-memory address range
`[base, limit)`, and embedded debug metadata.  Missing from src: the module
bookkeeping done through `Dwfl` in the C implementation. -/
structure Module where
  path : String
  base : Nat
  limit : Nat
  syms : List SymEntry
deriving DecidableEq

/-- Modelled from the spec: the Debug-Info Session: bound to one process id,
owning the module list captured at the last refresh, plus the process's
current module map (what a `refresh()` would re-read).  Missing from src: the
`Dwfl` session created by `init_dwfl`. -/
structure Session where
  pid : Nat
  modules : List Module
  freshModules : List Module
deriving DecidableEq

/-- Modelled from the spec: `refresh()` re-reads the process's module map. -/
def refresh (s : Session) : Session :=
  { s with modules := s.freshModules }

/-- Modelled from the spec: find the module whose address range contains
`addr` (linear scan of the session's module list). -/
def findModule (ms : List Module) (addr : Nat) : Option Module :=
  ms.find? (fun m => decide (m.base ≤ addr ∧ addr < m.limit))

/-- Modelled from the spec: a Resolved Frame: address, owning module
(nullable), function name (nullable), module-relative offset, and source
file/line (nullable).  Nullable fields indicate unresolved metadata, not an
error. -/
structure ResolvedFrame where
  address : Nat
  modPath : Option String
  func : Option String
  offset : Nat
  file : Option String
  line : Option Nat
deriving DecidableEq

/-- Modelled from the spec: the frame produced for an address outside all
known module ranges: function, file and line are all null. -/
def unresolvedFrame (addr : Nat) : ResolvedFrame :=
  { address := addr, modPath := none, func := none, offset := 0,
    file := none, line := none }

/-- Modelled from the spec: resolution within a found module: compute the
module-relative offset, query the debug metadata for the innermost symbol
covering it, and expand the inline chain into one Resolved Frame per logical
frame; with no covering symbol the frame keeps the module but null
function/file/line. -/
def resolveInModule (m : Module) (addr : Nat) : List ResolvedFrame :=
  let off := addr - m.base
  match m.syms.find? (fun sy => decide (sy.lo ≤ off ∧ off < sy.hi)) with
  | none =>
    [{ address := addr, modPath := some m.path, func := none, offset := off,
       file := none, line := none }]
  | some sy =>
    sy.frames.map fun fr =>
      { address := addr, modPath := some m.path, func := some fr.func,
        offset := off, file := fr.file, line := fr.line }

/-- Modelled from the spec: the Symbolizer's `resolve(session, address)`.
It never fails: look the address up in the session's module list; on a miss
trigger one `refresh()` and retry once; on a second miss yield the
unresolved fallback frame with null function/file/line.  One input address
can yield several Resolved Frames via inline expansion.  Missing from src:
the DWARF lookup inside `get_callchains`. -/
def resolve (s : Session) (addr : Nat) : List ResolvedFrame :=
  match findModule s.modules addr with
  | some m => resolveInModule m addr
  | none =>
    match findModule (refresh s).modules addr with
    | some m => resolveInModule m addr
    | none => [unresolvedFrame addr]

/-- Modelled from the spec: the fixed sentinel string rendered for an empty
input sequence, distinguishing "no data" from an empty result. -/
def sentinelChain : String := "<empty call chain>"

/-- Modelled from the spec: the fixed delimiter joining rendered frames. -/
def chainDelim : String := ";"

/-- Modelled from the spec: hexadecimal rendering of an address or offset. -/
def hexStr (n : Nat) : String := "0x" ++ String.mk (Nat.toDigits 16 n)

/-- Modelled from the spec: rendering of a single Resolved Frame: a resolved
function renders as `function:line` when line info exists and as
`function+offset` otherwise; an unresolved frame renders as the bare
hexadecimal address. -/
def renderFrame (f : ResolvedFrame) : String :=
  match f.func with
  | some name =>
    match f.line with
    | some ln => name ++ ":" ++ toString ln
    | none => name ++ "+" ++ hexStr f.offset
  | none => hexStr f.address

/-- Modelled from the spec: the Chain Formatter: joins the frames
innermost-first with the fixed delimiter; the empty sequence renders as the
fixed sentinel string. -/
def format (frames : List ResolvedFrame) : String :=
  match frames with
  | [] => sentinelChain
  | _ :: _ => String.intercalate chainDelim (frames.map renderFrame)

/-- Modelled from the spec: the error taxonomy surfaced to callers:
`AttachError` (cannot open or refresh the target process's module view) and
`OverrunError` (ring buffer lost samples between reads, carrying the number
of lost records). -/
inductive CaptureError where
  | attach
  | overrun (lostCount : Nat)
deriving DecidableEq

/-- Modelled from the spec: entry for a process in the process table seen by
`open_session`: its id, whether its `/proc` view is accessible, and its
module map. -/
structure ProcEntry where
  pid : Nat
  accessible : Bool
  modules : List Module
deriving DecidableEq

/-- Modelled from the spec: `open(process_id)`: fails with `AttachError` when
the process does not exist or access is denied.  Missing from src: the body
of `init_dwfl`. -/
def open_session (procs : List ProcEntry) (pid : Nat) :
    Except CaptureError Session :=
  match procs.find? (fun p => p.pid == pid) with
  | none => .error .attach
  | some p =>
    if p.accessible then
      .ok { pid := pid, modules := p.modules, freshModules := p.modules }
    else
      .error .attach

/-- Modelled from the spec: the single exposed entry point
`capture_chain(session, ring_buffer)`: reads the next raw sample record,
resolves each captured instruction pointer into Resolved Frames (innermost
first), and formats the chain; an overrun is surfaced as `OverrunError`; no
new data or a rejected corrupt record yields the sentinel chain; no other
error is ever surfaced.  Missing from src: the body of `get_callchains`. -/
def capture_chain (s : Session) (page : PerfPage) (r : Reader) :
    Except CaptureError String × Reader :=
  match next_record page r with
  | (.overrun n, r2) => (.error (.overrun n), r2)
  | (.noData, r2) => (.ok (format []), r2)
  | (.corrupt, r2) => (.ok (format []), r2)
  | (.record ips, r2) => (.ok (format ((ips.map (resolve s)).flatten)), r2)

end CPUTrace

namespace GPUTrace

/-- CUPTI callback domain, from `CUpti_CallbackDomain` as used by
`src/GPU_trace/kernel_trace.c` (only the runtime-API domain is acted on). -/
inductive CallbackDomain where
  | driverApi
  | runtimeApi
  | resource
  | synchronize
  | nvtx
deriving DecidableEq

/-- CUPTI callback site (`data->callbackSite`): API entry or API exit. -/
inductive CallbackSite where
  | apiEnter
  | apiExit
deriving DecidableEq

/-- CUPTI callback id; the handler only compares it against
`CUPTI_RUNTIME_TRACE_CBID_cudaLaunchKernel_v7000`. -/
inductive CallbackId where
  | cudaLaunchKernel_v7000
  | otherId (n : Nat)
deriving DecidableEq

/-- CUDA dim3, with the components printed via `%d`. -/
structure Dim3 where
  x : Int
  y : Int
  z : Int
deriving DecidableEq

/-- `cudaLaunchKernel_params`: the fields read by the handler. -/
structure CudaLaunchKernelParams where
  symbolName : String
  gridDim : Dim3
  blockDim : Dim3
deriving DecidableEq

/-- `CUpti_CallbackData`: the fields read by the handler. -/
structure CallbackData where
  callbackSite : CallbackSite
  functionParams : CudaLaunchKernelParams
deriving DecidableEq

/-- `callbackHandler` from `src/GPU_trace/kernel_trace.c`, with the two
`printf` calls modelled as the returned list of output lines.  The
`userdata` argument is kept (of arbitrary type) exactly because the C
function receives and ignores it. -/
def callbackHandler {α : Type} (userdata : α) (domain : CallbackDomain)
    (cbid : CallbackId) (cbdata : CallbackData) : List String :=
  if domain = CallbackDomain.runtimeApi then
    let data := cbdata
    if data.callbackSite = CallbackSite.apiEnter ∧
        cbid = CallbackId.cudaLaunchKernel_v7000 then
      let params := data.functionParams
      ["Kernel launched: " ++ params.symbolName,
       "Grid: (" ++ toString params.gridDim.x ++ "," ++
         toString params.gridDim.y ++ "," ++ toString params.gridDim.z ++
         "), Block: (" ++ toString params.blockDim.x ++ "," ++
         toString params.blockDim.y ++ "," ++ toString params.blockDim.z ++ ")"]
    else
      []
  else
    []

end GPUTrace

namespace CPUTrace

/-- Witness fixture: a kernel page state with three words pending. -/
def pageA : PerfPage := { dataSize := 4, dataHead := 3, lost := 0, mem := [1, 7, 8, 0] }

/-- Witness fixture: a later kernel page state whose write cursor advanced. -/
def pageB : PerfPage := { dataSize := 4, dataHead := 6, lost := 0, mem := [9, 7, 8, 2] }

/-- Witness fixture: a fresh reader state. -/
def readerW : Reader := { dataTail := 0, lastLost := 0 }

/-- Witness fixture: a page whose loss counter moved past the reader's. -/
def overrunPage : PerfPage := { dataSize := 4, dataHead := 4, lost := 3, mem := [2, 8, 9, 5] }

/-- Witness fixture: a reader that last observed loss counter 1. -/
def overrunReader : Reader := { dataTail := 0, lastLost := 1 }

/-- Witness fixture: a page whose pending record claims 200 instruction
pointers, far above the maximum call-chain depth. -/
def corruptPage : PerfPage := { dataSize := 4, dataHead := 4, lost := 0, mem := [200, 1, 2, 3] }

/-- Witness fixture: a fresh reader facing the corrupt record. -/
def corruptReader : Reader := { dataTail := 0, lastLost := 0 }

/-- Witness fixture: a module far away from the probed address. -/
def lonelyModule : Module :=
  { path := "libc.so", base := 0x7000, limit := 0x8000, syms := [] }

/-- Witness fixture: a session whose only module never covers address 0x100. -/
def lonelySession : Session :=
  { pid := 42, modules := [lonelyModule], freshModules := [lonelyModule] }

/-- Witness fixture: a fully resolved frame. -/
def frameW : ResolvedFrame :=
  { address := 0x1020, modPath := some "app", func := some "compute",
    offset := 0x20, file := none, line := none }

/-- Scenario fixture: module range [0x1000, 0x2000) whose debug metadata maps
offsets [0, 0x50) to function "compute". -/
def computeModule : Module :=
  { path := "app", base := 0x1000, limit := 0x2000,
    syms := [{ lo := 0, hi := 0x50,
               frames := [{ func := "compute", file := none, line := none }] }] }

/-- Scenario fixture: session holding only `computeModule`. -/
def scenarioSession : Session :=
  { pid := 7, modules := [computeModule], freshModules := [computeModule] }

/-- Scenario fixture: a module whose debug metadata marks offsets
[0x10, 0x20) as inlined into two call sites (two logical frames). -/
def inlineModule : Module :=
  { path := "app2", base := 0x4000, limit := 0x5000,
    syms := [{ lo := 0x10, hi := 0x20,
               frames := [{ func := "leaf", file := some "a.c", line := some 3 },
                          { func := "middle", file := some "b.c", line := some 9 }] }] }

/-- Scenario fixture: session holding only `inlineModule`. -/
def inlineSession : Session :=
  { pid := 8, modules := [inlineModule], freshModules := [inlineModule] }

end CPUTrace

namespace CPUTrace

/-- A contiguous write preserves the region's length when it fits. -/
theorem length_writeSlice (mem : List α) (p : Nat) (b : List α)
    (h : p + b.length ≤ mem.length) :
    (writeSlice mem p b).length = mem.length := by
  simp [writeSlice]
  omega

/-- Reading back exactly the contiguously written bytes returns them. -/
theorem slice_writeSlice (mem : List α) (p : Nat) (b : List α)
    (h : p + b.length ≤ mem.length) :
    slice (writeSlice mem p b) p b.length = b := by
  unfold slice writeSlice
  rw [List.append_assoc]
  rw [List.drop_left' (by simp; omega)]
  rw [List.take_left]

/-- Variant of `slice_writeSlice` with the slice length given by an
equation. -/
theorem slice_writeSlice' (mem : List α) (p : Nat) (b : List α) (n : Nat)
    (hn : b.length = n) (h : p + n ≤ mem.length) :
    slice (writeSlice mem p b) p n = b := by
  subst hn
  exact slice_writeSlice mem p b h

/-- A write at the start of the region does not disturb a slice lying
entirely after it. -/
theorem slice_writeSlice_disjoint (mem c : List α) (p n : Nat)
    (h : c.length ≤ p) :
    slice (writeSlice mem 0 c) p n = slice mem p n := by
  unfold slice writeSlice
  simp only [List.take_zero, List.nil_append, Nat.zero_add]
  rw [List.drop_append_eq_append_drop]
  rw [List.drop_eq_nil_of_le h, List.nil_append, List.drop_drop]
  congr 2
  omega

/-- Round trip through the circular buffer: bytes written with wraparound
(at most two contiguous slices) read back unchanged. -/
theorem readRing_writeRing (size : Nat) (mem bytes : List α) (tail : Nat)
    (hs : 0 < size) (hm : mem.length = size) (hb : bytes.length ≤ size) :
    readRing size (writeRing size mem tail bytes) tail (tail + bytes.length) = bytes := by
  have hp : tail % size < size := Nat.mod_lt _ hs
  simp only [readRing, writeRing, Nat.add_sub_cancel_left]
  by_cases hc : tail % size + bytes.length ≤ size
  · rw [if_pos hc, if_pos hc]
    exact slice_writeSlice mem (tail % size) bytes (by omega)
  · rw [if_neg hc, if_neg hc]
    set p := tail % size with hpdef
    have hb1 : (bytes.take (size - p)).length = size - p := by
      simp; omega
    have hb2 : (bytes.drop (size - p)).length = p + bytes.length - size := by
      simp; omega
    have hM1 : (writeSlice mem p (bytes.take (size - p))).length = size := by
      rw [length_writeSlice]; exact hm
      rw [hb1]; omega
    rw [slice_writeSlice' _ 0 _ _ hb2 (by rw [hM1]; omega)]
    rw [slice_writeSlice_disjoint _ _ _ _ (by rw [hb2]; omega)]
    rw [slice_writeSlice' _ _ _ _ hb1 (by rw [hm]; omega)]
    exact List.take_append_drop _ bytes

/-- Round trip through a non-wrapping buffer returns the written bytes. -/
theorem readFlat_writeFlat (mem bytes : List α) :
    readFlat (writeFlat mem 0 bytes) 0 bytes.length = bytes := by
  simp only [readFlat, writeFlat, writeSlice, slice, Nat.sub_zero, List.take_zero,
    List.nil_append, List.drop_zero, Nat.zero_add]
  rw [List.take_left]

/-- The reader never copies more words than lie between the cursors. -/
theorem readRing_length_le (size : Nat) (mem : List Nat) (tail head : Nat)
    (hm : mem.length = size) :
    (readRing size mem tail head).length ≤ head - tail := by
  have ht : size = 0 ∨ tail % size < size := by
    rcases Nat.eq_zero_or_pos size with h | h
    · exact Or.inl h
    · exact Or.inr (Nat.mod_lt _ h)
  simp only [readRing, slice]
  subst hm
  by_cases hc : tail % mem.length + (head - tail) ≤ mem.length
  · rw [if_pos hc]
    simp only [List.length_take, List.length_drop]
    omega
  · rw [if_neg hc]
    simp only [List.length_append, List.length_take, List.length_drop]
    omega

/-- The reader's memory accesses treat cursor values modulo the buffer size:
shifting both cursors by one full buffer size reads the same bytes. -/
theorem readRing_shift (size : Nat) (mem : List α) (t h : Nat) :
    readRing size mem (t + size) (h + size) = readRing size mem t h := by
  simp only [readRing, Nat.add_mod_right]
  have h2 : h + size - (t + size) = h - t := by omega
  rw [h2]

/-- One `next_record()` call never advances the read cursor past the
kernel's write cursor. -/
theorem next_record_tail_le (page : PerfPage) (r : Reader)
    (hm : page.mem.length = page.dataSize) (h : r.dataTail ≤ page.dataHead) :
    (next_record page r).2.dataTail ≤ page.dataHead := by
  unfold next_record
  by_cases h1 : r.lastLost < page.lost
  · simp [h1, h]
  · rw [if_neg h1]
    by_cases h2 : page.dataHead ≤ r.dataTail
    · simp [h2, h]
    · rw [if_neg h2]
      cases hw : readRing page.dataSize page.mem r.dataTail page.dataHead with
      | nil => simpa using h
      | cons count rest =>
        have hlen := readRing_length_le page.dataSize page.mem r.dataTail page.dataHead hm
        rw [hw] at hlen
        simp only [List.length_cons] at hlen
        by_cases h3 : maxChainDepth < count
        · simp [h3]
        · by_cases h4 : rest.length < count
          · simp [h3, h4, h]
          · simp [h3, h4]
            omega

/-- Across any sequence of `next_record()` calls against page states with
non-decreasing write cursors, the read cursor never passes the final write
cursor. -/
theorem runReader_tail_le (pages : List PerfPage) (r : Reader)
    (hmem : ∀ p ∈ pages, p.mem.length = p.dataSize)
    (hsorted : pages.Pairwise (fun a b => a.dataHead ≤ b.dataHead))
    (hinit : ∀ p ∈ pages, r.dataTail ≤ p.dataHead) :
    ∀ p ∈ pages.getLast?, (runReader pages r).dataTail ≤ p.dataHead := by
  induction pages generalizing r with
  | nil => simp [runReader]
  | cons p ps ih =>
    have hstep : (next_record p r).2.dataTail ≤ p.dataHead :=
      next_record_tail_le p r (hmem p (List.mem_cons_self p ps))
        (hinit p (List.mem_cons_self p ps))
    have hrest : ∀ q ∈ ps, (next_record p r).2.dataTail ≤ q.dataHead := by
      intro q hq
      exact le_trans hstep ((List.pairwise_cons.mp hsorted).1 q hq)
    have ihp := ih (next_record p r).2
      (fun q hq => hmem q (List.mem_cons_of_mem p hq))
      (List.pairwise_cons.mp hsorted).2
      hrest
    cases ps with
    | nil =>
      intro q hq
      simp [List.getLast?] at hq
      subst hq
      simpa [runReader] using hstep
    | cons q qs =>
      intro x hx
      rw [List.getLast?_cons_cons] at hx
      simpa [runReader] using ihp x hx

/-- When the loss counter has not moved, `next_record()` cannot report an
overrun. -/
theorem next_record_no_overrun (page : PerfPage) (r : Reader)
    (h : ¬ r.lastLost < page.lost) :
    ∀ n, (next_record page r).1 ≠ ReadResult.overrun n := by
  intro n
  unfold next_record
  rw [if_neg h]
  by_cases h2 : page.dataHead ≤ r.dataTail
  · simp [h2]
  · rw [if_neg h2]
    cases hw : readRing page.dataSize page.mem r.dataTail page.dataHead with
    | nil => simp
    | cons count rest =>
      by_cases h3 : maxChainDepth < count
      · simp [h3]
      · by_cases h4 : rest.length < count
        · simp [h3, h4]
        · simp [h3, h4]

/-- Formatting a one-frame chain renders exactly that frame. -/
theorem format_singleton (f : ResolvedFrame) : format [f] = renderFrame f := by
  simp [format, String.intercalate, String.intercalate.go]

end CPUTrace

namespace CPUTrace

/-- C1: the single exposed entry point `capture_chain`, given a session and a
ring buffer, returns one formatted call-chain string per invocation, and its
only failure outcomes are AttachError and OverrunError; no other error is
ever surfaced to the caller. -/
theorem capture_chain_outcomes (s : Session) (page : PerfPage) (r : Reader) :
    (∃ frames, (capture_chain s page r).1 = Except.ok (format frames)) ∨
    (capture_chain s page r).1 = Except.error CaptureError.attach ∨
    (∃ n, (capture_chain s page r).1 = Except.error (CaptureError.overrun n)) := by
  unfold capture_chain
  rcases hnr : next_record page r with ⟨res, r2⟩
  cases res with
  | noData => exact Or.inl ⟨[], rfl⟩
  | overrun n => exact Or.inr (Or.inr ⟨n, rfl⟩)
  | corrupt => exact Or.inl ⟨[], rfl⟩
  | record ips => exact Or.inl ⟨(ips.map (resolve s)).flatten, rfl⟩

/-- C2: `resolve(session, address)` never fails; for any address outside all
known module ranges the result is the frame whose function, file and line
fields are all null, rather than an error. -/
theorem resolve_never_fails (s : Session) (addr : Nat)
    (h : ∀ m ∈ s.modules ++ s.freshModules, ¬ (m.base ≤ addr ∧ addr < m.limit)) :
    resolve s addr = [unresolvedFrame addr] ∧
    ∀ f ∈ resolve s addr, f.func = none ∧ f.file = none ∧ f.line = none := by
  have h1 : findModule s.modules addr = none := by
    apply List.find?_eq_none.mpr
    intro m hm
    simpa using h m (List.mem_append.mpr (Or.inl hm))
  have h2 : findModule (refresh s).modules addr = none := by
    apply List.find?_eq_none.mpr
    intro m hm
    simp only [refresh] at hm
    simpa using h m (List.mem_append.mpr (Or.inr hm))
  have hres : resolve s addr = [unresolvedFrame addr] := by
    unfold resolve
    rw [h1, h2]
  refine ⟨hres, ?_⟩
  rw [hres]
  intro f hf
  simp only [List.mem_singleton] at hf
  subst hf
  exact ⟨rfl, rfl, rfl⟩

/-- C2 witness: resolving address 0x100, outside the only known module range
[0x7000, 0x8000), yields the all-null fallback frame. -/
theorem resolve_never_fails_witness :
    (∀ m ∈ lonelySession.modules ++ lonelySession.freshModules,
      ¬ (m.base ≤ 0x100 ∧ 0x100 < m.limit)) ∧
    (resolve lonelySession 0x100 = [unresolvedFrame 0x100] ∧
      ∀ f ∈ resolve lonelySession 0x100, f.func = none ∧ f.file = none ∧ f.line = none) :=
  ⟨by decide, resolve_never_fails lonelySession 0x100 (by decide)⟩

/-- C3: when the kernel's loss counter increased since the previous read,
`next_record()` surfaces the overrun (carrying the number of lost records)
instead of returning a record, leaves the read cursor where it was, and the
session remains usable: the following read does not report an overrun
again. -/
theorem overrun_surfaced (page : PerfPage) (r : Reader)
    (h : r.lastLost < page.lost) :
    (next_record page r).1 = ReadResult.overrun (page.lost - r.lastLost) ∧
    (∀ ips, (next_record page r).1 ≠ ReadResult.record ips) ∧
    (next_record page r).2.dataTail = r.dataTail ∧
    (∀ n, (next_record page (next_record page r).2).1 ≠ ReadResult.overrun n) := by
  have h1 : (next_record page r) =
      (ReadResult.overrun (page.lost - r.lastLost), { r with lastLost := page.lost }) := by
    unfold next_record
    rw [if_pos h]
  refine ⟨by rw [h1], by rw [h1]; intro ips; simp, by rw [h1], ?_⟩
  rw [h1]
  exact next_record_no_overrun page { r with lastLost := page.lost } (by simp)

/-- C3 witness: with the loss counter at 3 against a last-observed 1, the
reader reports an overrun of 2 lost records and then reads on normally. -/
theorem overrun_surfaced_witness :
    overrunReader.lastLost < overrunPage.lost ∧
    ((next_record overrunPage overrunReader).1 =
        ReadResult.overrun (overrunPage.lost - overrunReader.lastLost) ∧
      (∀ ips, (next_record overrunPage overrunReader).1 ≠ ReadResult.record ips) ∧
      (next_record overrunPage overrunReader).2.dataTail = overrunReader.dataTail ∧
      (∀ n, (next_record overrunPage (next_record overrunPage overrunReader).2).1 ≠
        ReadResult.overrun n)) :=
  ⟨by decide, overrun_surfaced overrunPage overrunReader (by decide)⟩

/-- C4: writing a record sequence that crosses the end boundary of a ring of
capacity C and reading it back through the Ring-Buffer Record Reader yields
exactly the byte sequence obtained from a non-wrapping buffer of capacity
2C holding the same records. -/
theorem wraparound_equals_flat (size : Nat) (mem flat bytes : List Nat) (tail : Nat)
    (hs : 0 < size) (hm : mem.length = size) (hf : 2 * size ≤ flat.length)
    (hb : bytes.length ≤ size) (hcross : size < tail % size + bytes.length) :
    readRing size (writeRing size mem tail bytes) tail (tail + bytes.length) =
      readFlat (writeFlat flat 0 bytes) 0 bytes.length := by
  rw [readRing_writeRing size mem bytes tail hs hm hb, readFlat_writeFlat]

/-- C4 witness: three bytes written at cursor 3 of a 4-byte ring wrap around
the boundary and read back equal to the flat 8-byte buffer's contents. -/
theorem wraparound_equals_flat_witness :
    (0 < 4 ∧ ([0, 0, 0, 0] : List Nat).length = 4 ∧
      2 * 4 ≤ ([0, 0, 0, 0, 0, 0, 0, 0] : List Nat).length ∧
      ([1, 2, 3] : List Nat).length ≤ 4 ∧ 4 < 3 % 4 + ([1, 2, 3] : List Nat).length) ∧
    readRing 4 (writeRing 4 [0, 0, 0, 0] 3 [1, 2, 3]) 3 (3 + ([1, 2, 3] : List Nat).length) =
      readFlat (writeFlat [0, 0, 0, 0, 0, 0, 0, 0] 0 [1, 2, 3]) 0 ([1, 2, 3] : List Nat).length :=
  ⟨⟨by decide, by decide, by decide, by decide, by decide⟩,
    wraparound_equals_flat 4 [0, 0, 0, 0] [0, 0, 0, 0, 0, 0, 0, 0] [1, 2, 3] 3
      (by decide) (by decide) (by decide) (by decide) (by decide)⟩

/-- C5: across every sequence of `next_record()` calls the read cursor never
advances past the kernel's write cursor, and the reader interprets cursor
values modulo the buffer size (shifting both cursors by the buffer size
reads the same bytes). -/
theorem reader_cursor_invariant (pages : List PerfPage) (r : Reader)
    (hmem : ∀ p ∈ pages, p.mem.length = p.dataSize)
    (hsorted : pages.Pairwise (fun a b => a.dataHead ≤ b.dataHead))
    (hinit : ∀ p ∈ pages, r.dataTail ≤ p.dataHead) :
    (∀ p ∈ pages.getLast?, (runReader pages r).dataTail ≤ p.dataHead) ∧
    (∀ p ∈ pages, ∀ t h, readRing p.dataSize p.mem (t + p.dataSize) (h + p.dataSize) =
        readRing p.dataSize p.mem t h) :=
  ⟨runReader_tail_le pages r hmem hsorted hinit,
    fun p _ t h => readRing_shift p.dataSize p.mem t h⟩

/-- C5 witness: two successive page states with growing write cursor keep the
read cursor at or below the final write cursor. -/
theorem reader_cursor_invariant_witness :
    ((∀ p ∈ [pageA, pageB], p.mem.length = p.dataSize) ∧
      ([pageA, pageB].Pairwise (fun a b => a.dataHead ≤ b.dataHead)) ∧
      (∀ p ∈ [pageA, pageB], readerW.dataTail ≤ p.dataHead)) ∧
    ((∀ p ∈ [pageA, pageB].getLast?, (runReader [pageA, pageB] readerW).dataTail ≤ p.dataHead) ∧
      (∀ p ∈ [pageA, pageB], ∀ t h,
        readRing p.dataSize p.mem (t + p.dataSize) (h + p.dataSize) =
          readRing p.dataSize p.mem t h)) :=
  ⟨⟨by decide, by decide, by decide⟩,
    reader_cursor_invariant [pageA, pageB] readerW (by decide) (by decide) (by decide)⟩

/-- C6: a raw sample record whose instruction-pointer count exceeds the fixed
maximum call-chain depth is rejected as corrupt and is never returned as a
valid raw sample record. -/
theorem corrupt_count_rejected (page : PerfPage) (r : Reader) (count : Nat) (rest : List Nat)
    (h1 : ¬ r.lastLost < page.lost) (h2 : r.dataTail < page.dataHead)
    (hw : readRing page.dataSize page.mem r.dataTail page.dataHead = count :: rest)
    (h3 : maxChainDepth < count) :
    (next_record page r).1 = ReadResult.corrupt ∧
    ∀ ips, (next_record page r).1 ≠ ReadResult.record ips := by
  have hr : (next_record page r).1 = ReadResult.corrupt := by
    unfold next_record
    rw [if_neg h1, if_neg (by omega), hw]
    simp [h3]
  exact ⟨hr, fun ips => by rw [hr]; simp⟩

/-- C6 witness: a pending record claiming 200 instruction pointers (above the
depth limit of 127) is rejected as corrupt. -/
theorem corrupt_count_rejected_witness :
    (¬ corruptReader.lastLost < corruptPage.lost ∧
      corruptReader.dataTail < corruptPage.dataHead ∧
      readRing corruptPage.dataSize corruptPage.mem corruptReader.dataTail
        corruptPage.dataHead = 200 :: [1, 2, 3] ∧
      maxChainDepth < 200) ∧
    ((next_record corruptPage corruptReader).1 = ReadResult.corrupt ∧
      ∀ ips, (next_record corruptPage corruptReader).1 ≠ ReadResult.record ips) :=
  ⟨⟨by decide, by decide, by decide, by decide⟩,
    corrupt_count_rejected corruptPage corruptReader 200 [1, 2, 3]
      (by decide) (by decide) (by decide) (by decide)⟩

/-- C7: `format` is deterministic: two equal ordered frame sequences yield
byte-identical output strings. -/
theorem format_deterministic (fs gs : List ResolvedFrame) (h : fs = gs) :
    format fs = format gs := by rw [h]

/-- C7 witness: formatting the same one-frame chain twice agrees. -/
theorem format_deterministic_witness :
    [frameW] = [frameW] ∧ format [frameW] = format [frameW] :=
  ⟨rfl, format_deterministic [frameW] [frameW] rfl⟩

/-- C8: `format` on the empty frame sequence returns a fixed non-empty
sentinel string, and that sentinel differs from the output for any one-frame
chain holding an unresolved address (rendered as the bare hexadecimal
address). -/
theorem sentinel_nonempty_distinct :
    format [] = sentinelChain ∧ sentinelChain ≠ "" ∧
    ∀ addr : Nat, format [unresolvedFrame addr] ≠ sentinelChain := by
  refine ⟨rfl, by decide, ?_⟩
  intro addr h
  rw [format_singleton] at h
  replace h : hexStr addr = sentinelChain := h
  have h0 : (hexStr addr).data.head? = some '0' := rfl
  rw [h] at h0
  exact absurd h0 (by decide)

/-- C9: with a module covering [0x1000, 0x2000) mapping function "compute" to
offsets [0, 0x50), resolving 0x1020 yields one frame with function "compute"
and offset 0x20, formatted exactly as "compute+0x20"; and an address whose
debug metadata marks it as inlined into two call sites produces exactly two
Resolved Frames from the one input address. -/
theorem scenario_resolution :
    (resolve scenarioSession 0x1020).map (fun f => f.func) = [some "compute"] ∧
    (resolve scenarioSession 0x1020).map (fun f => f.offset) = [0x20] ∧
    format (resolve scenarioSession 0x1020) = "compute+0x20" ∧
    (resolve inlineSession 0x4015).length = 2 := by
  refine ⟨by decide, by decide, ?_, by decide⟩
  decide

end CPUTrace

namespace GPUTrace

/-- C10: `callbackHandler` produces output exactly when the domain is the
CUDA runtime API, the site is API entry and the callback id is
cudaLaunchKernel_v7000 — then it prints the kernel symbol name and the grid
and block dimensions; for every other combination it performs no action, and
its behaviour never depends on the userdata argument. -/
theorem callbackHandler_characterization {α : Type} (u : α) (d : CallbackDomain)
    (cbid : CallbackId) (cd : CallbackData) :
    callbackHandler u d cbid cd =
      (if d = CallbackDomain.runtimeApi ∧ cd.callbackSite = CallbackSite.apiEnter ∧
          cbid = CallbackId.cudaLaunchKernel_v7000 then
        ["Kernel launched: " ++ cd.functionParams.symbolName,
         "Grid: (" ++ toString cd.functionParams.gridDim.x ++ "," ++
           toString cd.functionParams.gridDim.y ++ "," ++
           toString cd.functionParams.gridDim.z ++
           "), Block: (" ++ toString cd.functionParams.blockDim.x ++ "," ++
           toString cd.functionParams.blockDim.y ++ "," ++
           toString cd.functionParams.blockDim.z ++ ")"]
      else []) ∧
    (∀ (β : Type) (u2 : β), callbackHandler u d cbid cd = callbackHandler u2 d cbid cd) := by
  constructor
  · by_cases h1 : d = CallbackDomain.runtimeApi
    · by_cases h2 : cd.callbackSite = CallbackSite.apiEnter ∧
          cbid = CallbackId.cudaLaunchKernel_v7000
      · simp [callbackHandler, h1, h2]
      · simp [callbackHandler, h1, h2]
    · simp [callbackHandler, h1]
  · intro β u2
    rfl

end GPUTrace
